import Mathlib

set_option maxRecDepth 100000
set_option maxHeartbeats 1000000

/-!
Verification of the streaming progress consumer of this repository: the
`fetchJourneyAnalysis` read loop in the frontend (`src/unnamed/part_002`,
lines 231-324).  The loop reads raw byte chunks from `response.body.getReader()`,
decodes them with an incremental `TextDecoder` (`decode(value, {stream:true})`),
accumulates the decoded text in `buffer`, splits the buffer on `'\n'`
(`buffer.split('\n')`, keeping the trailing element `lines.pop() || ''` as the
new buffer), and dispatches every complete line: lines starting with the exact
prefix `"data: "` have their remainder (`line.substring(6)`) parsed with
`JSON.parse` and are branched on `data.type` (`progress` / `complete` /
`error`); everything is wrapped in a per-line `try { ... } catch (parseError)`
that only calls `console.warn`.

The embedding below is executable and byte-faithful:
* bytes are `Nat` (0..255), text is a list of Unicode code points (`Nat`);
* the incremental decoder is the WHATWG UTF-8 decoder state machine used by
  `TextDecoder` (code-point emission, `U+FFFD` replacement in non-fatal mode,
  BOM stripping of a leading `U+FEFF`, retained state across chunks);
* `JSON.parse` is modelled by a recursive-descent JSON parser over code
  points; JSON numbers are kept as exact rationals (no claim depends on
  float rounding, which the spec itself marks advisory);
* the React state setters (`setLoading`, `setError`, `setHistogramData`,
  `setLoadingProgress`, `setRealTimeProgress`) become fields of `UiState`
  plus an `Act` trace recording every setter call in order, which is the
  subscription-visible behaviour of the session.

JavaScript `undefined` is modelled as `Option.none` and JavaScript `null` as
`some JVal.null`, so `setError(null)` is `some JVal.null` while an absent
object field is `none`.
-/

/-- A JavaScript value produced by `JSON.parse`: null, booleans, numbers,
strings, arrays and objects.  Object members are kept in source order;
property access takes the last member with the requested key, matching the
last-one-wins semantics of duplicate keys in `JSON.parse`. -/
inductive JVal where
  | null : JVal
  | bool (b : Bool) : JVal
  | num (q : Rat) : JVal
  | str (s : List Nat) : JVal
  | arr (elems : List JVal) : JVal
  | obj (members : List (List Nat × JVal)) : JVal
deriving Repr

mutual

/-- Decidable equality for parsed values (hand-rolled because of the nested
lists in `arr` and `obj`). -/
def jdec : (a b : JVal) → Decidable (a = b)
  | JVal.null, JVal.null => isTrue rfl
  | JVal.null, JVal.bool _ => isFalse (fun h => JVal.noConfusion h)
  | JVal.null, JVal.num _ => isFalse (fun h => JVal.noConfusion h)
  | JVal.null, JVal.str _ => isFalse (fun h => JVal.noConfusion h)
  | JVal.null, JVal.arr _ => isFalse (fun h => JVal.noConfusion h)
  | JVal.null, JVal.obj _ => isFalse (fun h => JVal.noConfusion h)
  | JVal.bool _, JVal.null => isFalse (fun h => JVal.noConfusion h)
  | JVal.bool a, JVal.bool b =>
    match decEq a b with
    | isTrue h => isTrue (by rw [h])
    | isFalse h => isFalse (fun e => h (by injection e))
  | JVal.bool _, JVal.num _ => isFalse (fun h => JVal.noConfusion h)
  | JVal.bool _, JVal.str _ => isFalse (fun h => JVal.noConfusion h)
  | JVal.bool _, JVal.arr _ => isFalse (fun h => JVal.noConfusion h)
  | JVal.bool _, JVal.obj _ => isFalse (fun h => JVal.noConfusion h)
  | JVal.num _, JVal.null => isFalse (fun h => JVal.noConfusion h)
  | JVal.num _, JVal.bool _ => isFalse (fun h => JVal.noConfusion h)
  | JVal.num a, JVal.num b =>
    match decEq a b with
    | isTrue h => isTrue (by rw [h])
    | isFalse h => isFalse (fun e => h (by injection e))
  | JVal.num _, JVal.str _ => isFalse (fun h => JVal.noConfusion h)
  | JVal.num _, JVal.arr _ => isFalse (fun h => JVal.noConfusion h)
  | JVal.num _, JVal.obj _ => isFalse (fun h => JVal.noConfusion h)
  | JVal.str _, JVal.null => isFalse (fun h => JVal.noConfusion h)
  | JVal.str _, JVal.bool _ => isFalse (fun h => JVal.noConfusion h)
  | JVal.str _, JVal.num _ => isFalse (fun h => JVal.noConfusion h)
  | JVal.str a, JVal.str b =>
    match decEq a b with
    | isTrue h => isTrue (by rw [h])
    | isFalse h => isFalse (fun e => h (by injection e))
  | JVal.str _, JVal.arr _ => isFalse (fun h => JVal.noConfusion h)
  | JVal.str _, JVal.obj _ => isFalse (fun h => JVal.noConfusion h)
  | JVal.arr _, JVal.null => isFalse (fun h => JVal.noConfusion h)
  | JVal.arr _, JVal.bool _ => isFalse (fun h => JVal.noConfusion h)
  | JVal.arr _, JVal.num _ => isFalse (fun h => JVal.noConfusion h)
  | JVal.arr _, JVal.str _ => isFalse (fun h => JVal.noConfusion h)
  | JVal.arr a, JVal.arr b =>
    match jdecList a b with
    | isTrue h => isTrue (by rw [h])
    | isFalse h => isFalse (fun e => h (by injection e))
  | JVal.arr _, JVal.obj _ => isFalse (fun h => JVal.noConfusion h)
  | JVal.obj _, JVal.null => isFalse (fun h => JVal.noConfusion h)
  | JVal.obj _, JVal.bool _ => isFalse (fun h => JVal.noConfusion h)
  | JVal.obj _, JVal.num _ => isFalse (fun h => JVal.noConfusion h)
  | JVal.obj _, JVal.str _ => isFalse (fun h => JVal.noConfusion h)
  | JVal.obj _, JVal.arr _ => isFalse (fun h => JVal.noConfusion h)
  | JVal.obj a, JVal.obj b =>
    match jdecMembers a b with
    | isTrue h => isTrue (by rw [h])
    | isFalse h => isFalse (fun e => h (by injection e))

/-- Decidable equality for value lists. -/
def jdecList : (a b : List JVal) → Decidable (a = b)
  | [], [] => isTrue rfl
  | [], _ :: _ => isFalse (fun h => List.noConfusion h)
  | _ :: _, [] => isFalse (fun h => List.noConfusion h)
  | x :: xs, y :: ys =>
    match jdec x y with
    | isTrue h1 =>
      match jdecList xs ys with
      | isTrue h2 => isTrue (by rw [h1, h2])
      | isFalse h2 => isFalse (fun e => h2 (by injection e))
    | isFalse h1 => isFalse (fun e => h1 (by injection e))

/-- Decidable equality for member lists. -/
def jdecMembers : (a b : List (List Nat × JVal)) → Decidable (a = b)
  | [], [] => isTrue rfl
  | [], _ :: _ => isFalse (fun h => List.noConfusion h)
  | _ :: _, [] => isFalse (fun h => List.noConfusion h)
  | (k1, v1) :: xs, (k2, v2) :: ys =>
    match decEq k1 k2 with
    | isTrue hk =>
      match jdec v1 v2 with
      | isTrue hv =>
        match jdecMembers xs ys with
        | isTrue ht => isTrue (by rw [hk, hv, ht])
        | isFalse ht => isFalse (fun e => ht (by injection e))
      | isFalse hv =>
        isFalse (fun e => hv (by
          injection e with e1 e2
          exact congrArg Prod.snd e1))
    | isFalse hk =>
      isFalse (fun e => hk (by
        injection e with e1 e2
        exact congrArg Prod.fst e1))

end

instance : DecidableEq JVal := jdec

/-- Code points of a Lean string literal, used to write wire-protocol and
field-name constants. -/
def litStr (s : String) : List Nat :=
  s.toList.map Char.toNat

/-- Last-one-wins lookup among object members, the value an already-parsed
JavaScript object stores under a duplicated key. -/
def lookupLast : List (List Nat × JVal) → List Nat → Option JVal
  | [], _ => none
  | m :: rest, k =>
    match lookupLast rest k with
    | some v => some v
    | none => if m.1 = k then some m.2 else none

/-- JavaScript property access `v.k` on a parsed value: only objects have
data properties; on every other value (except `null`, which throws and is
handled separately at the call site) the access yields `undefined`. -/
def jget (v : JVal) (k : List Nat) : Option JVal :=
  match v with
  | JVal.obj ms => lookupLast ms k
  | _ => none

/-- JavaScript truthiness of a possibly-absent parsed value, as used by
`data.total` in the dispatch condition: `undefined`, `null`, `false`, `0`
and the empty string are falsy, everything else truthy. -/
def truthy : Option JVal → Bool
  | none => false
  | some JVal.null => false
  | some (JVal.bool b) => b
  | some (JVal.num q) => !(q == 0)
  | some (JVal.str s) => !(s.isEmpty)
  | some (JVal.arr _) => true
  | some (JVal.obj _) => true

/-! ### JSON.parse -/

/-- JSON insignificant whitespace: space, tab, line feed, carriage return. -/
def isJsonWs (c : Nat) : Bool :=
  c == 32 || c == 9 || c == 10 || c == 13

/-- Skip leading JSON whitespace. -/
def skipWs : List Nat → List Nat
  | [] => []
  | c :: rest => if isJsonWs c then skipWs rest else c :: rest

/-- Value of a hexadecimal digit code point, for `\uXXXX` escapes. -/
def hexVal (c : Nat) : Option Nat :=
  if 48 ≤ c ∧ c ≤ 57 then some (c - 48)
  else if 97 ≤ c ∧ c ≤ 102 then some (c - 87)
  else if 65 ≤ c ∧ c ≤ 70 then some (c - 55)
  else none

/-- Parse the body of a JSON string after the opening quote; returns the
string contents and the input following the closing quote.  Rejects raw
control characters and malformed escapes, as `JSON.parse` does. -/
def parseStrBody : List Nat → Option (List Nat × List Nat)
  | [] => none
  | c :: rest =>
    if c = 34 then some ([], rest)
    else if c = 92 then
      match rest with
      | [] => none
      | e :: r2 =>
        if e = 34 ∨ e = 92 ∨ e = 47 then
          Option.map (fun p => (e :: p.1, p.2)) (parseStrBody r2)
        else if e = 98 then Option.map (fun p => (8 :: p.1, p.2)) (parseStrBody r2)
        else if e = 102 then Option.map (fun p => (12 :: p.1, p.2)) (parseStrBody r2)
        else if e = 110 then Option.map (fun p => (10 :: p.1, p.2)) (parseStrBody r2)
        else if e = 114 then Option.map (fun p => (13 :: p.1, p.2)) (parseStrBody r2)
        else if e = 116 then Option.map (fun p => (9 :: p.1, p.2)) (parseStrBody r2)
        else if e = 117 then
          match r2 with
          | h1 :: h2 :: h3 :: h4 :: r3 =>
            match hexVal h1, hexVal h2, hexVal h3, hexVal h4 with
            | some a, some b, some c3, some d =>
              Option.map (fun p => ((a * 4096 + b * 256 + c3 * 16 + d) :: p.1, p.2))
                (parseStrBody r3)
            | _, _, _, _ => none
          | _ => none
        else none
    else if c < 32 then none
    else Option.map (fun p => (c :: p.1, p.2)) (parseStrBody rest)

/-- Consume a run of decimal digits, returning their values and the rest. -/
def takeDigits : List Nat → List Nat × List Nat
  | [] => ([], [])
  | c :: rest =>
    if 48 ≤ c ∧ c ≤ 57 then
      let p := takeDigits rest
      ((c - 48) :: p.1, p.2)
    else ([], c :: rest)

/-- Decimal value of a digit run. -/
def digitsToNat (ds : List Nat) : Nat :=
  ds.foldl (fun a d => a * 10 + d) 0

/-- Parse a JSON number literal (`-?(0|[1-9][0-9]*)(\.[0-9]+)?([eE][+-]?[0-9]+)?`)
into an exact rational and the remaining input. -/
def parseNum (s : List Nat) : Option (JVal × List Nat) :=
  let signed : Bool × List Nat :=
    match s with
    | 45 :: r => (true, r)
    | _ => (false, s)
  let neg := signed.1
  match signed.2 with
  | [] => none
  | c :: r =>
    let intPart : Option (List Nat × List Nat) :=
      if c = 48 then some ([0], r)
      else if 49 ≤ c ∧ c ≤ 57 then
        let p := takeDigits r
        some ((c - 48) :: p.1, p.2)
      else none
    match intPart with
    | none => none
    | some (ids, r1) =>
      let fracPart : Option (List Nat × List Nat) :=
        match r1 with
        | 46 :: r2 =>
          let p := takeDigits r2
          if p.1.isEmpty then none else some (p.1, p.2)
        | _ => some ([], r1)
      match fracPart with
      | none => none
      | some (fds, r2) =>
        let expPart : Option (Bool × List Nat × List Nat) :=
          match r2 with
          | e :: r3 =>
            if e = 101 ∨ e = 69 then
              match r3 with
              | 43 :: r4 =>
                let p := takeDigits r4
                if p.1.isEmpty then none else some (false, p.1, p.2)
              | 45 :: r4 =>
                let p := takeDigits r4
                if p.1.isEmpty then none else some (true, p.1, p.2)
              | r4 =>
                let p := takeDigits r4
                if p.1.isEmpty then none else some (false, p.1, p.2)
            else some (false, [], r2)
          | [] => some (false, [], r2)
        match expPart with
        | none => none
        | some (eneg, eds, r5) =>
          let mant : Nat := digitsToNat ids * 10 ^ fds.length + digitsToNat fds
          let mi : Int := if neg then -(mant : Int) else (mant : Int)
          let den : Nat := 10 ^ fds.length
          let e : Nat := digitsToNat eds
          let q : Rat :=
            if eneg then mkRat mi (den * 10 ^ e)
            else mkRat (mi * (10 : Int) ^ e) den
          some (JVal.num q, r5)

/-- Match a fixed literal tail (`rue`, `alse`, `ull`) and yield the value. -/
def expectLit (lit : List Nat) (s : List Nat) (v : JVal) : Option (JVal × List Nat) :=
  if lit.isPrefixOf s then some (v, s.drop lit.length) else none

mutual

/-- Fueled recursive-descent parser for one JSON value; input starts at a
non-whitespace character.  Returns the value and the unconsumed rest. -/
def parseValue : Nat → List Nat → Option (JVal × List Nat)
  | 0, _ => none
  | fuel + 1, s =>
    match s with
    | [] => none
    | c :: rest =>
      if c = 123 then parseObjBody fuel (skipWs rest)
      else if c = 91 then parseArrBody fuel (skipWs rest)
      else if c = 34 then Option.map (fun p => (JVal.str p.1, p.2)) (parseStrBody rest)
      else if c = 116 then expectLit (litStr "rue") rest (JVal.bool true)
      else if c = 102 then expectLit (litStr "alse") rest (JVal.bool false)
      else if c = 110 then expectLit (litStr "ull") rest JVal.null
      else if c = 45 ∨ (48 ≤ c ∧ c ≤ 57) then parseNum s
      else none

/-- Parse an object body after the opening brace (input whitespace-skipped). -/
def parseObjBody : Nat → List Nat → Option (JVal × List Nat)
  | 0, _ => none
  | fuel + 1, s =>
    match s with
    | 125 :: rest => some (JVal.obj [], rest)
    | _ => Option.map (fun p => (JVal.obj p.1, p.2)) (parseMembers fuel s)

/-- Parse one or more `"key": value` members followed by the closing brace. -/
def parseMembers : Nat → List Nat → Option (List (List Nat × JVal) × List Nat)
  | 0, _ => none
  | fuel + 1, s =>
    match s with
    | 34 :: rest =>
      match parseStrBody rest with
      | some (k, r1) =>
        match skipWs r1 with
        | 58 :: r2 =>
          match parseValue fuel (skipWs r2) with
          | some (v, r3) =>
            match skipWs r3 with
            | 44 :: r4 =>
              Option.map (fun p => ((k, v) :: p.1, p.2)) (parseMembers fuel (skipWs r4))
            | 125 :: r4 => some ([(k, v)], r4)
            | _ => none
          | none => none
        | _ => none
      | none => none
    | _ => none

/-- Parse an array body after the opening bracket (input whitespace-skipped). -/
def parseArrBody : Nat → List Nat → Option (JVal × List Nat)
  | 0, _ => none
  | fuel + 1, s =>
    match s with
    | 93 :: rest => some (JVal.arr [], rest)
    | _ => Option.map (fun p => (JVal.arr p.1, p.2)) (parseElems fuel s)

/-- Parse one or more array elements followed by the closing bracket. -/
def parseElems : Nat → List Nat → Option (List JVal × List Nat)
  | 0, _ => none
  | fuel + 1, s =>
    match parseValue fuel s with
    | some (v, r1) =>
      match skipWs r1 with
      | 44 :: r2 => Option.map (fun p => (v :: p.1, p.2)) (parseElems fuel (skipWs r2))
      | 93 :: r2 => some ([v], r2)
      | _ => none
    | none => none

end

/-- `JSON.parse` on a payload: a single JSON value, optionally surrounded by
whitespace; anything else (including trailing garbage) is a syntax error,
modelled as `none`.  The fuel bound over-approximates the maximal nesting
depth reachable on the given input. -/
def jsonParse (p : List Nat) : Option JVal :=
  match parseValue (3 * p.length + 3) (skipWs p) with
  | some (v, r) => if skipWs r = [] then some v else none
  | none => none

/-! ### Incremental text decoder (`TextDecoder`, WHATWG UTF-8) -/

/-- State of the WHATWG UTF-8 decoder behind `TextDecoder`: the partially
assembled code point, the number of continuation bytes still needed, the
admissible range for the next continuation byte, and whether the decoder is
still before its first emitted code point (for BOM stripping). -/
structure DecState where
  cp : Nat
  needed : Nat
  lower : Nat
  upper : Nat
  first : Bool
deriving Repr, DecidableEq

/-- Fresh decoder state of `new TextDecoder()`. -/
def decInit : DecState :=
  ⟨0, 0, 128, 191, true⟩

/-- Decoder transition for a byte arriving with no continuation pending
(WHATWG UTF-8 decoder, bytes-needed = 0 case); `fst` is the lead-byte
handling, emitting ASCII directly and `U+FFFD` (65533) on an invalid lead. -/
def decStart (fb : Bool) (b : Nat) : DecState × List Nat :=
  if b ≤ 127 then (⟨0, 0, 128, 191, fb⟩, [b])
  else if 194 ≤ b ∧ b ≤ 223 then (⟨b % 32, 1, 128, 191, fb⟩, [])
  else if 224 ≤ b ∧ b ≤ 239 then
    (⟨b % 16, 2, if b = 224 then 160 else 128, if b = 237 then 159 else 191, fb⟩, [])
  else if 240 ≤ b ∧ b ≤ 244 then
    (⟨b % 8, 3, if b = 240 then 144 else 128, if b = 244 then 143 else 191, fb⟩, [])
  else (⟨0, 0, 128, 191, fb⟩, [65533])

/-- One byte through the WHATWG UTF-8 decoder, before BOM filtering: with a
continuation pending, an in-range byte is accumulated (emitting the code
point once complete); an out-of-range byte emits `U+FFFD` and is reprocessed
as a fresh lead byte, which is the prepend-and-error rule of the standard. -/
def decByteCore (d : DecState) (b : Nat) : DecState × List Nat :=
  if d.needed = 0 then decStart d.first b
  else if d.lower ≤ b ∧ b ≤ d.upper then
    let cp2 := d.cp * 64 + b % 64
    if d.needed = 1 then (⟨0, 0, 128, 191, d.first⟩, [cp2])
    else (⟨cp2, d.needed - 1, 128, 191, d.first⟩, [])
  else
    let p := decStart d.first b
    (p.1, 65533 :: p.2)

/-- One byte through `TextDecoder`: the core decoder plus removal of a
leading byte-order mark (`U+FEFF`, 65279) before the first emitted code
point, which `new TextDecoder()` strips by default. -/
def decByte (d : DecState) (b : Nat) : DecState × List Nat :=
  let p := decByteCore d b
  if d.first then
    match p.2 with
    | [] => (p.1, [])
    | c :: cs =>
      ({ p.1 with first := false }, if c = 65279 then cs else c :: cs)
  else p

/-- `decoder.decode(chunk, {stream: true})`: fold the chunk's bytes through
the decoder, returning the carried state and the emitted code points. -/
def decBytes : DecState → List Nat → DecState × List Nat
  | d, [] => (d, [])
  | d, b :: bs =>
    let p := decByte d b
    let q := decBytes p.1 bs
    (q.1, p.2 ++ q.2)

/-! ### Line framer (`buffer.split('\n')` / `lines.pop()`) -/

/-- `text.split('\n')` on code points: always non-empty, one entry per
newline-separated segment, terminators stripped. -/
def splitNl : List Nat → List (List Nat)
  | [] => [[]]
  | c :: rest =>
    if c = 10 then [] :: splitNl rest
    else
      match splitNl rest with
      | [] => [[c]]
      | s :: ss => (c :: s) :: ss

/-! ### Event parser and dispatcher (per-line branch of the read loop) -/

/-- Everything the catch argument of the per-line `catch (parseError)` can
be: a `SyntaxError` from `JSON.parse`, a `TypeError` from reading `.type` of
`null`, or the `Error` thrown by the `data.type === 'error'` branch itself,
carrying that event's `message` field. -/
inductive JsErr where
  | badJson : JsErr
  | nullField : JsErr
  | thrown (msg : Option JVal) : JsErr
deriving Repr, DecidableEq

/-- The object built by `setRealTimeProgress({current, total, percentage,
message})`; each field is the raw (possibly absent) event field. -/
structure RtSnapshot where
  current : Option JVal
  total : Option JVal
  percentage : Option JVal
  message : Option JVal
deriving Repr, DecidableEq

/-- One observable action of the session: a React state setter call, a
`console.warn` from the per-line catch, or the scheduled scroll of the
`complete` branch.  The trace of actions is what subscribers of the session
observe, in order.  `setError` only ever occurs in the outer catch, which is
reachable solely through transport failure (`fetch` rejection or a non-ok
status), outside a delivered chunk sequence. -/
inductive Act where
  | setLoading (b : Bool) : Act
  | setError (v : Option JVal) : Act
  | setAiAnalysis (v : Option JVal) : Act
  | setLoadingProgress (v : Option JVal) : Act
  | setRealTimeProgress (v : Option RtSnapshot) : Act
  | setHistogramData (v : Option JVal) : Act
  | warn (e : JsErr) : Act
  | scheduleScroll : Act
deriving Repr, DecidableEq

/-- The component state touched by the streaming request: the `useState`
cells `histogramData`, `loading`, `error`, `aiAnalysis`, `loadingProgress`
and `realTimeProgress`. -/
structure UiState where
  histogramData : Option JVal
  loading : Bool
  error : Option JVal
  aiAnalysis : Option JVal
  loadingProgress : Option JVal
  realTimeProgress : Option RtSnapshot
deriving Repr, DecidableEq

def keyType : List Nat := litStr "type"
def keyStep : List Nat := litStr "step"
def keyTotal : List Nat := litStr "total"
def keyCurrent : List Nat := litStr "current"
def keyPercentage : List Nat := litStr "percentage"
def keyMessage : List Nat := litStr "message"
def keyData : List Nat := litStr "data"

/-- The guard `data.step === 'processing_journeys'` of the progress branch. -/
def isProcessingStep (d : JVal) : Bool :=
  match jget d keyStep with
  | some (JVal.str s) => s == litStr "processing_journeys"
  | _ => false

/-- The `progress` branch of the dispatch: when
`data.step === 'processing_journeys' && data.total`, replace the numeric
snapshot with this event's `current`/`total`/`percentage`/`message`
(`setRealTimeProgress({...})`); otherwise forward only the message as the
coarse phase label (`setLoadingProgress(data.message)`). -/
def progressAct (ui : UiState) (d : JVal) : UiState × List Act :=
  if isProcessingStep d && truthy (jget d keyTotal) then
    let snap : RtSnapshot :=
      ⟨jget d keyCurrent, jget d keyTotal, jget d keyPercentage, jget d keyMessage⟩
    ({ ui with realTimeProgress := some snap },
     [Act.setRealTimeProgress (some snap)])
  else
    ({ ui with loadingProgress := jget d keyMessage },
     [Act.setLoadingProgress (jget d keyMessage)])

/-- The body of the `if (line.startsWith('data: '))` block applied to the
payload `line.substring(6)`: `JSON.parse` it and branch on `data.type`
inside the per-line `try`/`catch`.  A parse failure warns; a parsed `null`
warns (reading `.type` of `null` throws a `TypeError` into the same catch);
`progress` updates either the numeric snapshot (when
`data.step === 'processing_journeys' && data.total`) or the coarse message;
`complete` stores the result and clears the progress state; `error` throws
`new Error(data.message)`, which the per-line catch immediately swallows as
a warning — the session is not settled. -/
def dispatchData (ui : UiState) (payload : List Nat) : UiState × List Act :=
  match jsonParse payload with
  | none => (ui, [Act.warn JsErr.badJson])
  | some JVal.null => (ui, [Act.warn JsErr.nullField])
  | some d =>
    match jget d keyType with
    | some (JVal.str t) =>
      if t = litStr "progress" then
        progressAct ui d
      else if t = litStr "complete" then
        ({ ui with
            histogramData := jget d keyData,
            loadingProgress := some JVal.null,
            realTimeProgress := none },
         [Act.setHistogramData (jget d keyData),
          Act.setLoadingProgress (some JVal.null),
          Act.setRealTimeProgress none,
          Act.scheduleScroll])
      else if t = litStr "error" then
        (ui, [Act.warn (JsErr.thrown (jget d keyMessage))])
      else (ui, [])
    | _ => (ui, [])

/-- One framed line through the dispatcher: lines whose first six characters
are not exactly `"data: "` are discarded without any action; matching lines
hand `line.substring(6)` to the payload dispatch. -/
def handleLine (ui : UiState) (line : List Nat) : UiState × List Act :=
  if (litStr "data: ").isPrefixOf line then dispatchData ui (line.drop 6)
  else (ui, [])

/-- The `for (const line of lines)` loop: fold the complete lines through
the dispatcher, concatenating the emitted actions. -/
def processLines : UiState → List (List Nat) → UiState × List Act
  | ui, [] => (ui, [])
  | ui, l :: ls =>
    let p := handleLine ui l
    let q := processLines p.1 ls
    (q.1, p.2 ++ q.2)

/-! ### The session: one streamed request -/

/-- Session state carried across loop iterations: decoder state, the framer
buffer (text after the last newline), the component state and the action
trace so far. -/
structure StreamState where
  dec : DecState
  buffer : List Nat
  ui : UiState
  trace : List Act
deriving Repr, DecidableEq

/-- One loop iteration on a received chunk:
`buffer += decoder.decode(value, {stream: true})`, then
`const lines = buffer.split('\n')`, `buffer = lines.pop() || ''`, then the
per-line dispatch over the remaining complete lines. -/
def stepChunk (st : StreamState) (chunk : List Nat) : StreamState :=
  let d := decBytes st.dec chunk
  let buf := st.buffer ++ d.2
  let segs := splitNl buf
  let q := processLines st.ui segs.dropLast
  ⟨d.1, segs.getLastD [], q.1, st.trace ++ q.2⟩

/-- The state-setter calls made before the read loop starts (lines 232-236
and 251 of the source, in order), for an initial `histogramData` of `h0` —
`setHistogramData` is never called before the loop, so the previous result
is retained. -/
def initTrace : List Act :=
  [Act.setLoading true,
   Act.setError (some JVal.null),
   Act.setAiAnalysis (some JVal.null),
   Act.setLoadingProgress (some (JVal.str (litStr "Initializing request..."))),
   Act.setRealTimeProgress none,
   Act.setLoadingProgress (some (JVal.str (litStr "Connecting to streaming service...")))]

/-- Component state right before the first `reader.read()` resolves. -/
def initUi (h0 : Option JVal) : UiState :=
  ⟨h0, true, some JVal.null, some JVal.null,
   some (JVal.str (litStr "Connecting to streaming service...")), none⟩

/-- Session state at the top of the read loop. -/
def initStream (h0 : Option JVal) : StreamState :=
  ⟨decInit, [], initUi h0, initTrace⟩

/-- The `finally` block after the loop exits: `setLoading(false)`,
`setLoadingProgress(null)`, `setRealTimeProgress(null)`. -/
def finalActs : List Act :=
  [Act.setLoading false,
   Act.setLoadingProgress (some JVal.null),
   Act.setRealTimeProgress none]

/-- Apply the `finally` block to the session state. -/
def finalizeUi (st : StreamState) : StreamState :=
  ⟨st.dec, st.buffer,
   { st.ui with loading := false, loadingProgress := some JVal.null,
                realTimeProgress := none },
   st.trace ++ finalActs⟩

/-- The whole read loop of `fetchJourneyAnalysis` on a successfully opened
stream: the chunks delivered by `reader.read()` in order (the final
`done: true` read carries no bytes and just exits the loop), followed by the
`finally` block.  Note the loop performs no end-of-input `decoder.decode()`
call and never touches the remaining `buffer` after `done`. -/
def runCore (h0 : Option JVal) (chunks : List (List Nat)) : StreamState :=
  chunks.foldl stepChunk (initStream h0)

/-- `runCore` followed by the `finally` block: the observable outcome of one
streamed session that was not interrupted by a transport failure. -/
def runStream (h0 : Option JVal) (chunks : List (List Nat)) : StreamState :=
  finalizeUi (runCore h0 chunks)

/-! ### Byte encoding of concrete inputs -/

/-- Canonical UTF-8 encoding of one code point, for building concrete wire
inputs. -/
def encCp (n : Nat) : List Nat :=
  if n < 128 then [n]
  else if n < 2048 then [192 + n / 64, 128 + n % 64]
  else if n < 65536 then [224 + n / 4096, 128 + (n / 64) % 64, 128 + n % 64]
  else [240 + n / 262144, 128 + (n / 4096) % 64, 128 + (n / 64) % 64, 128 + n % 64]

/-- UTF-8 bytes of a Lean string literal, for concrete stream inputs. -/
def utf8Of (s : String) : List Nat :=
  (s.toList.map Char.toNat).foldr (fun c acc => encCp c ++ acc) []

/-! ### Proof-side helper definitions -/

/-- Prepend one (non-newline) character to the first complete line if there
is one, else to the open remainder; the action of one character on the
framer's output. -/
def consLine (c : Nat) : List (List Nat) × List Nat → List (List Nat) × List Nat
  | ([], r) => ([], c :: r)
  | (l :: ls, r) => ((c :: l) :: ls, r)

/-- The framer's output on a text as (complete lines, open remainder):
equal to `((splitNl t).dropLast, (splitNl t).getLastD [])`, in the
recursive form the proofs below induct on. -/
def linesOf : List Nat → List (List Nat) × List Nat
  | [] => ([], [])
  | c :: rest =>
    if c = 10 then ([] :: (linesOf rest).1, (linesOf rest).2)
    else consLine c (linesOf rest)

/-- No newline among the code points (the framer-buffer invariant). -/
def noNl (l : List Nat) : Prop :=
  ∀ c ∈ l, c ≠ 10

instance noNlDec (l : List Nat) : Decidable (noNl l) :=
  inferInstanceAs (Decidable (∀ c ∈ l, c ≠ 10))

/-- Classification of one framed line by the `complete` branch: `some v`
when the dispatcher would execute `setHistogramData(v)` for this line
(an event line whose payload parses to a non-null value of type
`complete`, `v` being its possibly-absent `data` field), `none` otherwise. -/
def lineCompleteSet (line : List Nat) : Option (Option JVal) :=
  if (litStr "data: ").isPrefixOf line then
    match jsonParse (line.drop 6) with
    | none => none
    | some d =>
      match jget d keyType with
      | some (JVal.str t) =>
        if t = litStr "progress" then none
        else if t = litStr "complete" then some (jget d keyData)
        else none
      | _ => none
  else none

/-- An action that delivers a progress update to subscribers (either the
numeric snapshot or the coarse phase message). -/
def isProgressAct : Act → Bool
  | Act.setLoadingProgress _ => true
  | Act.setRealTimeProgress _ => true
  | _ => false

/-! ### Concrete wire inputs used by the counterexamples and witnesses -/

/-- An `error` event record followed by a `progress` record. -/
def exErrThenProgress : List Nat :=
  utf8Of "data: \x7b\"type\":\"error\",\"message\":\"boom\"\x7d\ndata: \x7b\"type\":\"progress\",\"message\":\"still\"\x7d\n"

/-- A single `complete` record with payload `1`. -/
def exCompleteOne : List Nat :=
  utf8Of "data: \x7b\"type\":\"complete\",\"data\":1\x7d\n"

/-- A `complete` record with payload `1`, then — in two later chunks of the
same stream — a `progress` record and a second `complete` record with
payload `2`. -/
def exLateChunks : List (List Nat) :=
  [exCompleteOne,
   utf8Of "data: \x7b\"type\":\"progress\",\"message\":\"late\"\x7d\n",
   utf8Of "data: \x7b\"type\":\"complete\",\"data\":2\x7d\n"]

/-- A stream holding only `progress` records and no terminal event. -/
def exProgressOnly : List Nat :=
  utf8Of "data: \x7b\"type\":\"progress\",\"current\":1,\"total\":2,\"message\":\"working\"\x7d\n"

/-- A final `complete` record lacking its trailing newline. -/
def exCompleteNoNewline : List Nat :=
  utf8Of "data: \x7b\"type\":\"complete\",\"data\":1\x7d"

/-- A valid `progress` record; trailing bytes are appended to it in the
malformed-encoding counterexample. -/
def exProgressRecord : List Nat :=
  utf8Of "data: \x7b\"type\":\"progress\",\"message\":\"tick\"\x7d\n"

/-- A valid `progress` event line (with `step`/`total`, so it drives the
numeric snapshot). -/
def exProgressLineA : List Nat :=
  litStr "data: \x7b\"type\":\"progress\",\"step\":\"processing_journeys\",\"current\":1,\"total\":2,\"message\":\"a\"\x7d"

/-- A second valid `progress` event line (message-only). -/
def exProgressLineB : List Nat :=
  litStr "data: \x7b\"type\":\"progress\",\"message\":\"b\"\x7d"

/-- The value `JSON.parse` yields for the payload of `exProgressLineB`. -/
def exProgressLineBVal : JVal :=
  JVal.obj [(litStr "type", JVal.str (litStr "progress")),
            (litStr "message", JVal.str (litStr "b"))]

/-- An event line whose payload is not valid JSON. -/
def exMalformedLine : List Nat :=
  litStr "data: \x7b\"type\":\"progress\",..."

/-- A `progress` event carrying a truthy `total` but whose `step` is not
`processing_journeys`. -/
def exProgressOtherStep : List Nat :=
  litStr "data: \x7b\"type\":\"progress\",\"step\":\"loading\",\"total\":5,\"message\":\"hi\"\x7d"

/-- The value `JSON.parse` yields for the payload of `exProgressOtherStep`. -/
def exProgressOtherStepVal : JVal :=
  JVal.obj [(litStr "type", JVal.str (litStr "progress")),
            (litStr "step", JVal.str (litStr "loading")),
            (litStr "total", JVal.num 5),
            (litStr "message", JVal.str (litStr "hi"))]

/-- The value `JSON.parse` yields for the payload of `exProgressLineA`. -/
def exProgressLineAVal : JVal :=
  JVal.obj [(litStr "type", JVal.str (litStr "progress")),
            (litStr "step", JVal.str (litStr "processing_journeys")),
            (litStr "current", JVal.num 1),
            (litStr "total", JVal.num 2),
            (litStr "message", JVal.str (litStr "a"))]

/-- The complete lines a whole session ever dispatches: frame the full
decoded text of the stream and drop the trailing open remainder. -/
def streamLines (parts : List (List Nat)) : List (List Nat) :=
  (splitNl (decBytes decInit parts.flatten).2).dropLast

/-! ## Framer algebra -/

/-- `split('\n')` never returns an empty array. -/
theorem splitNl_ne_nil : ∀ l : List Nat, splitNl l ≠ []
  | [] => by simp [splitNl]
  | c :: rest => by
    by_cases hc : c = 10
    · simp [splitNl, hc]
    · simp only [splitNl, if_neg hc]
      cases h : splitNl rest with
      | nil => simp
      | cons s ss => simp

/-- The recursive framer `linesOf` computes exactly the source's
`split('\n')` followed by `pop()`: first component the complete lines,
second the popped remainder. -/
theorem linesOf_eq : ∀ l : List Nat,
    linesOf l = ((splitNl l).dropLast, (splitNl l).getLastD [])
  | [] => rfl
  | c :: rest => by
    have ih := linesOf_eq rest
    cases h : splitNl rest with
    | nil => exact absurd h (splitNl_ne_nil rest)
    | cons s ss =>
      by_cases hc : c = 10
      · subst hc
        simp only [linesOf, if_pos rfl, ih, h, splitNl]
        cases ss with
        | nil => simp [List.getLastD_cons]
        | cons s2 ss2 => simp [List.getLastD_cons]
      · simp only [linesOf, if_neg hc, ih, h, splitNl]
        cases ss with
        | nil => simp [consLine, List.getLastD_cons]
        | cons s2 ss2 => simp [consLine, List.getLastD_cons]

/-- Gluing lemma for the framer: framing `x ++ y` yields the complete lines
of `x` followed by the complete lines of the popped remainder of `x`
prepended to `y`, with the remainder of that second framing. -/
theorem linesOf_append : ∀ x y : List Nat,
    linesOf (x ++ y) = ((linesOf x).1 ++ (linesOf ((linesOf x).2 ++ y)).1,
                        (linesOf ((linesOf x).2 ++ y)).2)
  | [], y => by simp [linesOf]
  | c :: x', y => by
    have ih := linesOf_append x' y
    by_cases hc : c = 10
    · subst hc
      simp [linesOf, ih]
    · cases hA : (linesOf x').1 with
      | nil =>
        have hx : linesOf (c :: x') = ([], c :: (linesOf x').2) := by
          simp only [linesOf, if_neg hc]
          rw [show linesOf x' = ((linesOf x').1, (linesOf x').2) from rfl, hA]
          rfl
        have hxy : linesOf (c :: (x' ++ y)) = consLine c (linesOf (x' ++ y)) := by
          simp [linesOf, hc]
        rw [List.cons_append, hxy, ih, hA, hx]
        simp only [List.nil_append, List.cons_append]
        rw [show linesOf ((linesOf x').2 ++ y)
              = ((linesOf ((linesOf x').2 ++ y)).1, (linesOf ((linesOf x').2 ++ y)).2) from rfl]
        have hcy : linesOf (c :: ((linesOf x').2 ++ y))
            = consLine c (linesOf ((linesOf x').2 ++ y)) := by
          simp [linesOf, hc]
        rw [hcy]
      | cons l ls =>
        have hx : linesOf (c :: x') = ((c :: l) :: ls, (linesOf x').2) := by
          simp only [linesOf, if_neg hc]
          rw [show linesOf x' = ((linesOf x').1, (linesOf x').2) from rfl, hA]
          rfl
        have hxy : linesOf (c :: (x' ++ y)) = consLine c (linesOf (x' ++ y)) := by
          simp [linesOf, hc]
        rw [List.cons_append, hxy, ih, hA, hx]
        simp [consLine]

/-- The two components of the gluing lemma, phrased on the source's
`split('\n')` / `pop()` combination. -/
theorem splitNl_glue (x y : List Nat) :
    (splitNl (x ++ y)).dropLast
      = (splitNl x).dropLast
        ++ (splitNl ((splitNl x).getLastD [] ++ y)).dropLast
    ∧ (splitNl (x ++ y)).getLastD []
      = (splitNl ((splitNl x).getLastD [] ++ y)).getLastD [] := by
  have h := linesOf_append x y
  simp only [linesOf_eq, Prod.mk.injEq] at h
  exact h

/-- The popped remainder never contains a newline. -/
theorem linesOf_snd_noNl : ∀ l : List Nat, noNl (linesOf l).2
  | [] => by simp [linesOf, noNl]
  | c :: rest => by
    have ih := linesOf_snd_noNl rest
    by_cases hc : c = 10
    · simpa [linesOf, hc] using ih
    · simp only [linesOf, if_neg hc]
      cases hA : (linesOf rest).1 with
      | nil =>
        rw [show linesOf rest = ((linesOf rest).1, (linesOf rest).2) from rfl, hA]
        intro d hd
        simp only [consLine, List.mem_cons] at hd
        rcases hd with rfl | hd
        · exact hc
        · exact ih d hd
      | cons l ls =>
        rw [show linesOf rest = ((linesOf rest).1, (linesOf rest).2) from rfl, hA]
        exact ih

/-- `pop()` of the split never contains a newline. -/
theorem splitNl_getLastD_noNl (l : List Nat) : noNl ((splitNl l).getLastD []) := by
  have h := linesOf_snd_noNl l
  rwa [linesOf_eq] at h

/-- A newline-free text frames to a single open remainder. -/
theorem splitNl_of_noNl : ∀ l : List Nat, noNl l → splitNl l = [l]
  | [], _ => rfl
  | c :: rest, h => by
    have hc : c ≠ 10 := h c (by simp)
    have ih := splitNl_of_noNl rest (fun d hd => h d (by simp [hd]))
    simp [splitNl, hc, ih]

/-! ## Decoder and dispatcher folds -/

/-- The incremental decoder is a fold over individual bytes: decoding a
concatenation equals decoding the parts in sequence with the state carried
over — the formal content of `decode(..., {stream: true})`. -/
theorem decBytes_append : ∀ (a b : List Nat) (d : DecState),
    decBytes d (a ++ b)
      = ((decBytes (decBytes d a).1 b).1,
         (decBytes d a).2 ++ (decBytes (decBytes d a).1 b).2)
  | [], b, d => by simp [decBytes]
  | x :: a', b, d => by
    simp [decBytes, decBytes_append a' b, List.append_assoc]

/-- Dispatching a concatenation of line lists dispatches them in sequence,
threading the component state and concatenating the action traces. -/
theorem processLines_append : ∀ (l1 l2 : List (List Nat)) (ui : UiState),
    processLines ui (l1 ++ l2)
      = ((processLines (processLines ui l1).1 l2).1,
         (processLines ui l1).2 ++ (processLines (processLines ui l1).1 l2).2)
  | [], l2, ui => by simp [processLines]
  | l :: l1', l2, ui => by
    simp [processLines, processLines_append l1', List.append_assoc]

/-! ## Session algebra -/

/-- Processing one chunk and then another is processing their
concatenation: the loop body is insensitive to where the transport cut the
byte stream. -/
theorem stepChunk_append (st : StreamState) (a b : List Nat) :
    stepChunk (stepChunk st a) b = stepChunk st (a ++ b) := by
  obtain ⟨hg1, hg2⟩ :=
    splitNl_glue (st.buffer ++ (decBytes st.dec a).2) (decBytes (decBytes st.dec a).1 b).2
  simp only [stepChunk, decBytes_append a b st.dec, ← List.append_assoc, hg1, hg2,
    processLines_append, StreamState.mk.injEq]

/-- An empty chunk is a no-op provided the buffer holds no newline (always
true for reachable states). -/
theorem stepChunk_nil (st : StreamState) (h : noNl st.buffer) : stepChunk st [] = st := by
  simp [stepChunk, decBytes, splitNl_of_noNl st.buffer h, processLines]

/-- The framer buffer of any post-chunk state is newline-free. -/
theorem stepChunk_buffer_noNl (st : StreamState) (a : List Nat) :
    noNl (stepChunk st a).buffer :=
  splitNl_getLastD_noNl _

/-- Folding the loop body over a chunk list equals one pass over the
concatenated bytes. -/
theorem foldl_stepChunk_flatten : ∀ (ps : List (List Nat)) (st : StreamState),
    noNl st.buffer → ps.foldl stepChunk st = stepChunk st ps.flatten
  | [], st, h => by simpa [List.foldl] using (stepChunk_nil st h).symm
  | a :: ps', st, h => by
    have ih := foldl_stepChunk_flatten ps' (stepChunk st a) (stepChunk_buffer_noNl st a)
    simp [List.foldl_cons, ih, stepChunk_append, List.flatten_cons]

/-- The read loop on any chunk sequence equals one iteration on the
flattened byte stream. -/
theorem runCore_flatten (h0 : Option JVal) (ps : List (List Nat)) :
    runCore h0 ps = stepChunk (initStream h0) ps.flatten :=
  foldl_stepChunk_flatten ps (initStream h0) (by intro c hc; cases hc)

/-- Newline-freedom is preserved by concatenation. -/
theorem noNl_append {a b : List Nat} (ha : noNl a) (hb : noNl b) : noNl (a ++ b) := by
  intro c hc
  rcases List.mem_append.1 hc with h | h
  · exact ha c h
  · exact hb c h

/-- The framer buffer after any run of the loop is newline-free. -/
theorem runCore_buffer_noNl (h0 : Option JVal) (parts : List (List Nat)) :
    noNl (runCore h0 parts).buffer := by
  rw [runCore_flatten]
  exact stepChunk_buffer_noNl _ _

/-! ## Per-line and per-stream state characterizations -/

/-- No branch of the payload dispatch ever writes the `error` state: the
`error`-event throw is swallowed by the per-line catch, so `setError` is
unreachable from inside the loop. -/
theorem dispatchData_error (ui : UiState) (p : List Nat) :
    (dispatchData ui p).1.error = ui.error := by
  unfold dispatchData progressAct
  repeat' split
  all_goals rfl

/-- Framed lines never change the `error` state. -/
theorem handleLine_error (ui : UiState) (l : List Nat) :
    (handleLine ui l).1.error = ui.error := by
  unfold handleLine
  split
  · exact dispatchData_error ui _
  · rfl

/-- The histogram after one line is the line's `complete`-branch write if
the line triggers one, else the previous histogram. -/
theorem handleLine_histo (ui : UiState) (l : List Nat) :
    (handleLine ui l).1.histogramData = (lineCompleteSet l).getD ui.histogramData := by
  unfold handleLine lineCompleteSet dispatchData progressAct
  repeat' split
  all_goals simp_all [jget]

/-- The dispatcher loop never changes the `error` state. -/
theorem processLines_error : ∀ (ls : List (List Nat)) (ui : UiState),
    (processLines ui ls).1.error = ui.error
  | [], _ => rfl
  | l :: ls', ui => by
    have ih := processLines_error ls' (handleLine ui l).1
    simp only [processLines]
    exact ih.trans (handleLine_error ui l)

/-- The histogram after the dispatcher loop is the last `complete`-branch
write of the line sequence, or the previous histogram if there is none:
settlement is last-write-wins, not first-outcome-wins. -/
theorem processLines_histo : ∀ (ls : List (List Nat)) (ui : UiState),
    (processLines ui ls).1.histogramData
      = (ls.filterMap lineCompleteSet).foldl (fun _ v => v) ui.histogramData
  | [], _ => rfl
  | l :: ls', ui => by
    have ih := processLines_histo ls' (handleLine ui l).1
    have hl := handleLine_histo ui l
    cases h : lineCompleteSet l with
    | none =>
      rw [h] at hl
      simp only [processLines, List.filterMap_cons, h]
      rw [ih, hl]
      simp
    | some v =>
      rw [h] at hl
      simp only [processLines, List.filterMap_cons, h]
      rw [ih, hl]
      simp [List.foldl_cons]

/-- Over a whole session, the `error` state is exactly the `setError(null)`
written before the loop: no stream content ever produces a failure
outcome. -/
theorem runStream_error_null (h0 : Option JVal) (parts : List (List Nat)) :
    (runStream h0 parts).ui.error = some JVal.null := by
  unfold runStream finalizeUi
  show (runCore h0 parts).ui.error = _
  rw [runCore_flatten]
  show (processLines (initUi h0) _).1.error = _
  rw [processLines_error]
  rfl

/-- Over a whole session, the delivered result is the `data` field of the
last `complete` event of the stream's complete lines (or the pre-existing
histogram if there is none). -/
theorem runStream_histo (h0 : Option JVal) (parts : List (List Nat)) :
    (runStream h0 parts).ui.histogramData
      = ((streamLines parts).filterMap lineCompleteSet).foldl (fun _ v => v) h0 := by
  unfold runStream finalizeUi
  show (runCore h0 parts).ui.histogramData = _
  rw [runCore_flatten]
  show (processLines (initUi h0)
      (splitNl ([] ++ (decBytes decInit parts.flatten).2)).dropLast).1.histogramData = _
  rw [List.nil_append, processLines_histo]
  rfl

/-- A trailing chunk whose decoded text holds no newline changes neither
the component state nor the action trace: it is parked in the buffer and,
at end-of-stream, silently dropped. -/
theorem runStream_tail_noNl (h0 : Option JVal) (parts : List (List Nat)) (t : List Nat)
    (h : noNl (decBytes (runCore h0 parts).dec t).2) :
    (runStream h0 (parts ++ [t])).ui = (runStream h0 parts).ui
    ∧ (runStream h0 (parts ++ [t])).trace = (runStream h0 parts).trace := by
  have hc : runCore h0 (parts ++ [t]) = stepChunk (runCore h0 parts) t := by
    unfold runCore
    rw [List.foldl_append]
    rfl
  have hb : noNl ((runCore h0 parts).buffer ++ (decBytes (runCore h0 parts).dec t).2) :=
    noNl_append (runCore_buffer_noNl h0 parts) h
  constructor <;>
  · unfold runStream finalizeUi
    rw [hc]
    simp [stepChunk, splitNl_of_noNl _ hb, processLines]

/-! ## Dispatch helper lemmas -/

/-- A line with the event prefix hands `line.substring(6)` to the payload
dispatch. -/
theorem handleLine_data (ui : UiState) (l : List Nat)
    (hp : (litStr "data: ").isPrefixOf l = true) :
    handleLine ui l = dispatchData ui (l.drop 6) := by
  unfold handleLine
  simp [hp]

/-- A payload `JSON.parse` rejects only produces the parse warning. -/
theorem dispatchData_badJson (ui : UiState) (p : List Nat)
    (hj : jsonParse p = none) :
    dispatchData ui p = (ui, [Act.warn JsErr.badJson]) := by
  unfold dispatchData
  rw [hj]

/-- A payload parsing to a value of type `progress` takes the progress
branch. -/
theorem dispatchData_progress (ui : UiState) (p : List Nat) (d : JVal)
    (hj : jsonParse p = some d)
    (ht : jget d keyType = some (JVal.str (litStr "progress"))) :
    dispatchData ui p = progressAct ui d := by
  unfold dispatchData
  rw [hj]
  cases d with
  | null => simp [jget] at ht
  | bool b => simp [jget] at ht
  | num q => simp [jget] at ht
  | str s => simp [jget] at ht
  | arr a => simp [jget] at ht
  | obj ms => simp [ht]

/-- Every progress dispatch emits exactly one progress-delivery action and
touches neither the `error` state nor the histogram. -/
theorem progressAct_shape (ui : UiState) (d : JVal) :
    ∃ a : Act, (progressAct ui d).2 = [a] ∧ isProgressAct a = true
      ∧ (progressAct ui d).1.error = ui.error
      ∧ (progressAct ui d).1.histogramData = ui.histogramData := by
  unfold progressAct
  split
  · exact ⟨_, rfl, rfl, rfl, rfl⟩
  · exact ⟨_, rfl, rfl, rfl, rfl⟩

/-! ## Claims -/

/-- Claim C1: the spec says a well-formed `error` event transitions the
session to `SETTLED(failure(message))` and stops consumption.  The code's
`throw new Error(data.message)` lands in the per-line
`catch (parseError)`, which only logs a warning: on a stream with an
`error` record followed by a `progress` record, the `error` state stays
`null` (no failure is settled), the warning carries the message, and the
following record is still consumed and delivered. -/
theorem claim1_error_event_swallowed :
    (runStream none [exErrThenProgress]).ui.error = some JVal.null
    ∧ (runStream none [exErrThenProgress]).trace
        = initTrace
          ++ [Act.warn (JsErr.thrown (some (JVal.str (litStr "boom")))),
              Act.setLoadingProgress (some (JVal.str (litStr "still")))]
          ++ finalActs :=
  ⟨by decide, by decide⟩

/-- Claim C2 counterexample: the claim says that after a `complete` event
settles the session, all later records and chunks are ignored and the
outcome stays the first one.  On a stream whose first chunk completes with
payload `1` and whose later chunks carry a `progress` record and a second
`complete` with payload `2`, the session's result ends as `2`, not `1`:
later records are processed and the outcome is overwritten. -/
theorem claim2_counterexample :
    (runStream none [exCompleteOne]).ui.histogramData = some (JVal.num 1)
    ∧ (runStream none exLateChunks).ui.histogramData = some (JVal.num 2) :=
  ⟨by decide, by decide⟩

/-- Claim C2 (corrected): settlement is last-write-wins, not at-most-once:
the dispatcher keeps consuming after a `complete` event, and the session's
result is the `data` field of the last `complete` event of the stream (or
the pre-existing value if there is none). -/
theorem claim2_last_complete_wins (h0 : Option JVal) (parts : List (List Nat)) :
    (runStream h0 parts).ui.histogramData
      = ((streamLines parts).filterMap lineCompleteSet).foldl (fun _ v => v) h0 :=
  runStream_histo h0 parts

/-- Claim C3 counterexample: the claim says a stream that is exhausted
while still streaming with no terminal event settles as a failure.  On a
progress-only stream the code just exits the loop: the `error` state stays
`null`, no result is stored, the loading flags are cleared and the trace
shows no failure delivery of any kind. -/
theorem claim3_counterexample :
    (runStream none [exProgressOnly]).ui.error = some JVal.null
    ∧ (runStream none [exProgressOnly]).ui.histogramData = none
    ∧ (runStream none [exProgressOnly]).ui.loading = false
    ∧ (runStream none [exProgressOnly]).trace
        = initTrace ++ [Act.setLoadingProgress (some (JVal.str (litStr "working")))]
          ++ finalActs :=
  ⟨by decide, by decide, by decide, by decide⟩

/-- Claim C3 (corrected): when the source is exhausted with no terminal
event ever received, the session ends silently instead of settling as a
failure: the `error` state remains `null`, the result remains its previous
value, and only the loading indicators are cleared. -/
theorem claim3_stream_end_silent (h0 : Option JVal) (parts : List (List Nat))
    (h : (streamLines parts).filterMap lineCompleteSet = []) :
    (runStream h0 parts).ui.error = some JVal.null
    ∧ (runStream h0 parts).ui.histogramData = h0
    ∧ (runStream h0 parts).ui.loading = false := by
  refine ⟨runStream_error_null h0 parts, ?_, rfl⟩
  rw [runStream_histo, h]
  rfl

theorem claim3_witness :
    (runStream none [exProgressOnly]).ui.error = some JVal.null
    ∧ (runStream none [exProgressOnly]).ui.histogramData = none
    ∧ (runStream none [exProgressOnly]).ui.loading = false :=
  claim3_stream_end_silent none [exProgressOnly] (by decide)

/-- Claim C4: chunk-boundary invariance.  Delivering any byte sequence as
one chunk or split into arbitrarily many chunks at arbitrary positions
(including inside a multi-byte character and inside a JSON payload) yields
the identical session: same decoder state, same buffer, same component
state and the identical ordered action trace — hence the identical ordered
sequence of parsed events. -/
theorem claim4_chunk_invariance (h0 : Option JVal) (parts : List (List Nat)) :
    runStream h0 parts = runStream h0 [parts.flatten] := by
  unfold runStream
  rw [runCore_flatten h0 parts, runCore_flatten h0 [parts.flatten]]
  simp

/-- Claim C5 counterexample: the claim says a non-blank buffered remainder
without a trailing newline is emitted as a final record at end-of-stream.
On a stream whose single chunk is a `complete` record with no trailing
newline, the code emits nothing at all — the result is lost — whereas the
same record with its newline delivers the result. -/
theorem claim5_counterexample :
    (runStream none [exCompleteNoNewline]).ui.histogramData = none
    ∧ (runStream none [exCompleteNoNewline]).trace = initTrace ++ finalActs
    ∧ (runStream none [exCompleteOne]).ui.histogramData = some (JVal.num 1) :=
  ⟨by decide, by decide, by decide⟩

/-- Claim C5 (corrected): at end-of-stream the buffered remainder is never
emitted: appending a trailing chunk whose decoded text contains no newline
leaves the component state and the action trace unchanged, so a final
`data:` line lacking its terminator is silently discarded. -/
theorem claim5_remainder_discarded (h0 : Option JVal) (parts : List (List Nat))
    (t : List Nat) (h : noNl (decBytes (runCore h0 parts).dec t).2) :
    (runStream h0 (parts ++ [t])).ui = (runStream h0 parts).ui
    ∧ (runStream h0 (parts ++ [t])).trace = (runStream h0 parts).trace :=
  runStream_tail_noNl h0 parts t h

theorem claim5_witness :
    (runStream none ([] ++ [exCompleteNoNewline])).ui = (runStream none []).ui
    ∧ (runStream none ([] ++ [exCompleteNoNewline])).trace = (runStream none []).trace :=
  claim5_remainder_discarded none [] exCompleteNoNewline (by decide)

/-- Claim C6 counterexample: the claim says the decoder is flushed with an
explicit end-of-input call and undecodable retained bytes surface as a
distinct malformed-encoding failure.  The loop never makes such a call
(`decoder.decode(value, {stream: true})` is the only decode): appending a
lone UTF-8 lead byte `0xC3` as a final chunk leaves the whole observable
session unchanged — the byte is retained by the decoder, then silently
discarded, and the `error` state stays `null`. -/
theorem claim6_counterexample :
    (runStream none [exProgressRecord, [195]]).ui = (runStream none [exProgressRecord]).ui
    ∧ (runStream none [exProgressRecord, [195]]).trace
        = (runStream none [exProgressRecord]).trace
    ∧ (runStream none [exProgressRecord, [195]]).ui.error = some JVal.null :=
  ⟨by decide, by decide, by decide⟩

/-- Claim C6 (corrected): there is no end-of-input flush: a trailing chunk
the decoder wholly retains (no code point emitted) changes neither the
component state nor the action trace; undecodable trailing bytes at stream
end are silently dropped and no malformed-encoding failure is surfaced. -/
theorem claim6_pending_bytes_discarded (h0 : Option JVal) (parts : List (List Nat))
    (t : List Nat) (h : (decBytes (runCore h0 parts).dec t).2 = []) :
    (runStream h0 (parts ++ [t])).ui = (runStream h0 parts).ui
    ∧ (runStream h0 (parts ++ [t])).trace = (runStream h0 parts).trace :=
  runStream_tail_noNl h0 parts t (by
    rw [h]
    intro c hc
    cases hc)

theorem claim6_witness :
    (runStream none ([exProgressRecord] ++ [[195]])).ui
      = (runStream none [exProgressRecord]).ui
    ∧ (runStream none ([exProgressRecord] ++ [[195]])).trace
      = (runStream none [exProgressRecord]).trace :=
  claim6_pending_bytes_discarded none [exProgressRecord] [195] (by decide)

/-- Claim C7: a single malformed `data:` line between two valid `progress`
event lines does not abort the session: the lines around it each deliver
their progress action, the malformed line only produces the parse warning,
and neither the `error` state nor the stored result changes. -/
theorem claim7_malformed_line_nonfatal (ui : UiState) (l1 m l2 : List Nat) (d1 d2 : JVal)
    (hp1 : (litStr "data: ").isPrefixOf l1 = true)
    (hj1 : jsonParse (l1.drop 6) = some d1)
    (ht1 : jget d1 keyType = some (JVal.str (litStr "progress")))
    (hpm : (litStr "data: ").isPrefixOf m = true)
    (hjm : jsonParse (m.drop 6) = none)
    (hp2 : (litStr "data: ").isPrefixOf l2 = true)
    (hj2 : jsonParse (l2.drop 6) = some d2)
    (ht2 : jget d2 keyType = some (JVal.str (litStr "progress"))) :
    ∃ a1 a2 : Act,
      (processLines ui [l1, m, l2]).2 = [a1, Act.warn JsErr.badJson, a2]
      ∧ isProgressAct a1 = true ∧ isProgressAct a2 = true
      ∧ (processLines ui [l1, m, l2]).1.error = ui.error
      ∧ (processLines ui [l1, m, l2]).1.histogramData = ui.histogramData := by
  obtain ⟨a1, ha1, hpa1, _, _⟩ := progressAct_shape ui d1
  obtain ⟨a2, ha2, hpa2, _, _⟩ := progressAct_shape (progressAct ui d1).1 d2
  have hl1 : handleLine ui l1 = progressAct ui d1 :=
    (handleLine_data ui l1 hp1).trans (dispatchData_progress ui _ d1 hj1 ht1)
  have hlm : handleLine (progressAct ui d1).1 m
      = ((progressAct ui d1).1, [Act.warn JsErr.badJson]) :=
    (handleLine_data _ m hpm).trans (dispatchData_badJson _ _ hjm)
  have hl2 : handleLine (progressAct ui d1).1 l2 = progressAct (progressAct ui d1).1 d2 :=
    (handleLine_data _ l2 hp2).trans (dispatchData_progress _ _ d2 hj2 ht2)
  refine ⟨a1, a2, ?_, hpa1, hpa2, processLines_error [l1, m, l2] ui, ?_⟩
  · simp [processLines, hl1, hlm, hl2, ha1, ha2]
  · rw [processLines_histo]
    have e1 : lineCompleteSet l1 = none := by
      simp [lineCompleteSet, hp1, hj1, ht1]
    have em : lineCompleteSet m = none := by
      simp [lineCompleteSet, hpm, hjm]
    have e2 : lineCompleteSet l2 = none := by
      simp [lineCompleteSet, hp2, hj2, ht2]
    simp [List.filterMap_cons, e1, em, e2]

theorem claim7_witness :
    ∃ a1 a2 : Act,
      (processLines (initUi none) [exProgressLineA, exMalformedLine, exProgressLineB]).2
        = [a1, Act.warn JsErr.badJson, a2]
      ∧ isProgressAct a1 = true ∧ isProgressAct a2 = true
      ∧ (processLines (initUi none) [exProgressLineA, exMalformedLine, exProgressLineB]).1.error
          = (initUi none).error
      ∧ (processLines (initUi none)
          [exProgressLineA, exMalformedLine, exProgressLineB]).1.histogramData
          = (initUi none).histogramData :=
  claim7_malformed_line_nonfatal (initUi none) exProgressLineA exMalformedLine exProgressLineB
    exProgressLineAVal exProgressLineBVal
    (by decide) (by decide) (by decide) (by decide) (by decide) (by decide) (by decide) (by decide)

/-- Claim C8 counterexample: the claim says every `progress` event carrying
a `total` field replaces the numeric progress snapshot.  The code
additionally requires `data.step === 'processing_journeys'`: on a progress
event with `total: 5` but `step: "loading"`, the numeric snapshot is not
written — only the message is forwarded as the coarse label. -/
theorem claim8_counterexample :
    (handleLine (initUi none) exProgressOtherStep).1.realTimeProgress = none
    ∧ (handleLine (initUi none) exProgressOtherStep).2
        = [Act.setLoadingProgress (some (JVal.str (litStr "hi")))] :=
  ⟨by decide, by decide⟩

/-- Claim C8 (corrected): a `progress` event replaces the numeric snapshot
with its `current`/`total`/`percentage`/`message` exactly when
`data.step === 'processing_journeys'` holds and `data.total` is truthy;
in every other case (including a truthy `total` with a different `step`)
only its `message` is forwarded as the current phase label, with no numeric
snapshot. -/
theorem claim8_progress_dispatch (ui : UiState) (l : List Nat) (d : JVal)
    (hp : (litStr "data: ").isPrefixOf l = true)
    (hj : jsonParse (l.drop 6) = some d)
    (ht : jget d keyType = some (JVal.str (litStr "progress"))) :
    ((isProcessingStep d && truthy (jget d keyTotal)) = true →
      handleLine ui l
        = ({ ui with realTimeProgress := some ⟨jget d keyCurrent, jget d keyTotal, jget d keyPercentage, jget d keyMessage⟩ },
           [Act.setRealTimeProgress
              (some ⟨jget d keyCurrent, jget d keyTotal, jget d keyPercentage, jget d keyMessage⟩)]))
    ∧ ((isProcessingStep d && truthy (jget d keyTotal)) = false →
      handleLine ui l
        = ({ ui with loadingProgress := jget d keyMessage },
           [Act.setLoadingProgress (jget d keyMessage)])) := by
  have h := (handleLine_data ui l hp).trans (dispatchData_progress ui _ d hj ht)
  constructor
  · intro hb
    rw [h]
    unfold progressAct
    simp [hb]
  · intro hb
    rw [h]
    unfold progressAct
    simp [hb]

theorem claim8_witness :
    handleLine (initUi none) exProgressLineA
      = ({ initUi none with realTimeProgress := some ⟨some (JVal.num 1), some (JVal.num 2), none, some (JVal.str (litStr "a"))⟩ },
         [Act.setRealTimeProgress
            (some ⟨some (JVal.num 1), some (JVal.num 2), none, some (JVal.str (litStr "a"))⟩)])
    ∧ handleLine (initUi none) exProgressOtherStep
      = ({ initUi none with loadingProgress := some (JVal.str (litStr "hi")) },
         [Act.setLoadingProgress (some (JVal.str (litStr "hi")))]) :=
  ⟨((claim8_progress_dispatch (initUi none) exProgressLineA exProgressLineAVal
      (by decide) (by decide) (by decide)).1 (by decide)).trans (by decide),
   ((claim8_progress_dispatch (initUi none) exProgressOtherStep exProgressOtherStepVal
      (by decide) (by decide) (by decide)).2 (by decide)).trans (by decide)⟩

/-- Claim C10: a framed line is dispatched as an event line exactly when
its first six characters are the exact string `data: `, and the payload
handed to the parser is the line from index 6 on; every other line is
discarded with no state change and no action. -/
theorem claim10_prefix_exact (ui : UiState) (l : List Nat) :
    (l.take 6 = litStr "data: " → handleLine ui l = dispatchData ui (l.drop 6))
    ∧ (l.take 6 ≠ litStr "data: " → handleLine ui l = (ui, [])) := by
  have hlen : (litStr "data: ").length = 6 := by decide
  constructor
  · intro h
    have hp : (litStr "data: ").isPrefixOf l = true := by
      rw [List.isPrefixOf_iff_prefix, List.prefix_iff_eq_take, hlen]
      exact h.symm
    exact handleLine_data ui l hp
  · intro h
    have hp : ¬((litStr "data: ").isPrefixOf l = true) := by
      rw [List.isPrefixOf_iff_prefix, List.prefix_iff_eq_take, hlen]
      exact fun hc => h hc.symm
    unfold handleLine
    simp [hp]

theorem claim10_witness :
    handleLine (initUi none) (litStr "data:x") = (initUi none, [])
    ∧ handleLine (initUi none) (litStr "DATA: x") = (initUi none, [])
    ∧ handleLine (initUi none) (litStr "data: 7")
        = dispatchData (initUi none) ((litStr "data: 7").drop 6) :=
  ⟨(claim10_prefix_exact (initUi none) (litStr "data:x")).2 (by decide),
   (claim10_prefix_exact (initUi none) (litStr "DATA: x")).2 (by decide),
   (claim10_prefix_exact (initUi none) (litStr "data: 7")).1 (by decide)⟩
